import Mathlib

/-!
Verification of the NVIDIA inference adapter conversion utilities
(file llama_stack/providers/remote/inference/nvidia/_openai_utils.py).

The development shallowly embeds the conversion functions of the source
file: pure field mappers become Lean functions, the streaming generator
becomes an explicit fold over the list of input chunks with a small state
record (the event-type generator is represented by a started flag, the
latched stop reason by an Option field), Python exceptions become
Except/Option results, and Python truthiness tests are made explicit.
Floating point numbers are only carried through by the source, never
computed with, so they are modelled by an opaque integer carrier.
The external json module (json.loads and json.dumps) is modelled by an
executable parser and serializer for the fragment of JSON objects with
string keys and string or natural number values, with no escape
sequences; hypotheses on claims restrict strings to that fragment.
-/

namespace NvidiaOpenAIUtils

/-- StopReason enumeration of the stack schema. -/
inductive StopReason where
  | end_of_turn
  | end_of_message
  | out_of_tokens
  deriving DecidableEq, Repr

/-- Event type enumeration of the stack stream schema. -/
inductive ChatCompletionResponseEventType where
  | start
  | progress
  | complete
  deriving DecidableEq, Repr

/-- Parse status enumeration for tool call deltas. -/
inductive ToolCallParseStatus where
  | started
  | in_progress
  | failure
  | success
  deriving DecidableEq, Repr

/-! ## Model of the external json module

The source calls json.loads on tool call argument strings.  The json
module is an external collaborator; it is modelled here for the fragment
of JSON objects whose values are natural numbers or strings, without
escape sequences and without whitespace. -/

/-- JSON value fragment: natural numbers and strings. -/
inductive JVal where
  | jnum : Nat → JVal
  | jstr : String → JVal
  deriving DecidableEq, Repr

/-- JSON object fragment: association list from string keys to values,
in insertion order, as produced by iterating a Python dict. -/
abbrev JObj := List (String × JVal)

/-- Opening brace character. -/
def lbrace : Char := Char.ofNat 123

/-- Closing brace character. -/
def rbrace : Char := Char.ofNat 125

/-- Digit character for a value below ten. -/
def digitChar (n : Nat) : Char := Char.ofNat (48 + n)

/-- Decimal digit characters of a natural number, most significant first,
prefixed to an accumulator.  Structural recursion on a fuel argument so
that the kernel can evaluate it; any fuel at least the number keeps the
zero fuel fallback unreachable. -/
def natToCharsFuel : Nat → Nat → List Char → List Char
  | 0, n, acc => digitChar (n % 10) :: acc
  | fuel + 1, n, acc =>
    if n < 10 then digitChar n :: acc
    else natToCharsFuel fuel (n / 10) (digitChar (n % 10) :: acc)

/-- Decimal digit characters of a natural number. -/
def natToChars (n : Nat) : List Char := natToCharsFuel n n []

/-- Quoted form of a string, no escaping (the modelled fragment excludes
strings holding a quote or a backslash). -/
def quoteString (s : String) : List Char := '"' :: (s.data ++ ['"'])

/-- Serialization of a JSON value of the fragment. -/
def serializeJVal : JVal → List Char
  | JVal.jnum n => natToChars n
  | JVal.jstr s => quoteString s

/-- Serialization of one key-value entry. -/
def serializeEntry (kv : String × JVal) : List Char :=
  quoteString kv.1 ++ ':' :: serializeJVal kv.2

/-- Serialization of the entries of an object, comma separated. -/
def serializeEntries : JObj → List Char
  | [] => []
  | [kv] => serializeEntry kv
  | kv :: rest => serializeEntry kv ++ ',' :: serializeEntries rest

/-- Model of json.dumps on the object fragment, compact separators. -/
def json_dumps (m : JObj) : String :=
  String.mk (lbrace :: (serializeEntries m ++ [rbrace]))

/-- Greedy digit scanner: folds leading digit characters onto an
accumulator value and returns the remaining input. -/
def parseNatAux (acc : Nat) : List Char → Nat × List Char
  | [] => (acc, [])
  | c :: cs =>
    if c.isDigit then parseNatAux (acc * 10 + (c.toNat - 48)) cs
    else (acc, c :: cs)

/-- Parser for a natural number literal: requires a leading digit. -/
def parseNat (cs : List Char) : Option (Nat × List Char) :=
  match cs with
  | [] => none
  | c :: _ => if c.isDigit then some (parseNatAux 0 cs) else none

/-- Scanner for the body of a string literal: collects characters until
the closing quote. -/
def parseStrAux : List Char → Option (List Char × List Char)
  | [] => none
  | c :: cs =>
    if c = '"' then some ([], cs)
    else (parseStrAux cs).map (fun p => (c :: p.1, p.2))

/-- Parser for a string literal: requires a leading quote. -/
def parseStringLit (cs : List Char) : Option (String × List Char) :=
  match cs with
  | [] => none
  | c :: rest =>
    if c = '"' then (parseStrAux rest).map (fun p => (String.mk p.1, p.2))
    else none

/-- Parser for a JSON value of the fragment. -/
def parseJVal (cs : List Char) : Option (JVal × List Char) :=
  match cs with
  | [] => none
  | c :: _ =>
    if c = '"' then (parseStringLit cs).map (fun p => (JVal.jstr p.1, p.2))
    else if c.isDigit then (parseNat cs).map (fun p => (JVal.jnum p.1, p.2))
    else none

/-- Parser for the colon and value after the key of an entry. -/
def parseEntryRest (k : String) (r1 : List Char) : Option ((String × JVal) × List Char) :=
  match r1 with
  | [] => none
  | c :: r2 =>
    if c = ':' then
      match parseJVal r2 with
      | none => none
      | some (v, r3) => some ((k, v), r3)
    else none

/-- Parser for one key-value entry. -/
def parseEntry (cs : List Char) : Option ((String × JVal) × List Char) :=
  match parseStringLit cs with
  | none => none
  | some (k, r1) => parseEntryRest k r1

/-- Parser for one or more comma separated entries, fuel bounded. -/
def parseEntriesAux : Nat → List Char → Option (JObj × List Char)
  | 0, _ => none
  | fuel + 1, cs =>
    match parseEntry cs with
    | none => none
    | some (kv, r1) =>
      match r1 with
      | [] => some ([kv], [])
      | c :: r2 =>
        if c = ',' then (parseEntriesAux fuel r2).map (fun p => (kv :: p.1, p.2))
        else some ([kv], c :: r2)

/-- Parser for the closing brace after the entries of an object. -/
def parseObjClose (m : JObj) (r3 : List Char) : Option (JObj × List Char) :=
  match r3 with
  | [] => none
  | c3 :: r4 => if c3 = rbrace then some (m, r4) else none

/-- Parser for the entries and closing brace of a non empty object. -/
def parseObjTail (r1 : List Char) : Option (JObj × List Char) :=
  match parseEntriesAux r1.length r1 with
  | none => none
  | some (m, r3) => parseObjClose m r3

/-- Parser for the body of an object after the opening brace. -/
def parseObjBody (r1 : List Char) : Option (JObj × List Char) :=
  match r1 with
  | [] => none
  | c2 :: r2 => if c2 = rbrace then some ([], r2) else parseObjTail (c2 :: r2)

/-- Parser for a JSON object of the fragment. -/
def parseObj (cs : List Char) : Option (JObj × List Char) :=
  match cs with
  | [] => none
  | c :: r1 => if c = lbrace then parseObjBody r1 else none

/-- Model of json.loads on the object fragment: the whole input must be
one object, with no trailing characters.  A none result models a raised
json.decoder.JSONDecodeError. -/
def json_loads (s : String) : Option JObj :=
  match parseObj s.data with
  | none => none
  | some (m, rest) => if rest = [] then some m else none

/-- Predicate for strings representable by the modelled fragment of the
json module: no double quote and no backslash, so serialization needs no
escape sequences. -/
def goodString (s : String) : Bool :=
  s.data.all (fun c => if c = '"' then false else if c = '\\' then false else true)

/-- Predicate for values representable by the modelled fragment. -/
def goodVal : JVal → Bool
  | JVal.jnum _ => true
  | JVal.jstr s => goodString s

/-- Predicate for objects representable by the modelled fragment. -/
def goodObj (m : JObj) : Bool :=
  m.all (fun kv => goodString kv.1 && goodVal kv.2)

/-! ## Python truthiness helpers

The source tests optional fields with bare if statements; the helpers
below make the Python truthiness rules explicit: None is falsy, an empty
string is falsy, an empty list is falsy, and enum members are always
truthy. -/

/-- Truthiness of an optional string: None and the empty string are
falsy. -/
def optStrTruthy : Option String → Bool
  | none => false
  | some s => if s = "" then false else true

/-- Truthiness of an optional list: None and the empty list are falsy. -/
def optListTruthy {α : Type} : Option (List α) → Bool
  | none => false
  | some [] => false
  | some (_ :: _) => true

/-- Model of the Python expression x or y with x an optional string:
the first operand when it is truthy, else y. -/
def pyStrOr (x : Option String) (y : String) : String :=
  match x with
  | none => y
  | some s => if s = "" then y else s

/-! ## Shared sub mappers -/

/-- Mapping of _convert_openai_finish_reason: dict lookup over the three
known finish reason strings, with StopReason.end_of_turn as the default
for every other value, including an absent finish reason. -/
def _convert_openai_finish_reason (finish_reason : Option String) : StopReason :=
  match finish_reason with
  | some "stop" => StopReason.end_of_turn
  | some "length" => StopReason.out_of_tokens
  | some "tool_calls" => StopReason.end_of_message
  | _ => StopReason.end_of_turn

/-- OpenAI Function record of a tool call: arguments is a JSON encoded
string. -/
structure OpenAIFunction where
  arguments : String
  name : String
  deriving DecidableEq, Repr

/-- OpenAI ChatCompletionMessageToolCall record. -/
structure OpenAIChatCompletionMessageToolCall where
  id : String
  function : OpenAIFunction
  deriving DecidableEq, Repr

/-- Stack schema ToolCall: arguments hold the parsed JSON mapping. -/
structure ToolCall where
  call_id : String
  tool_name : String
  arguments : JObj
  deriving DecidableEq, Repr

/-- Conversion of one provider tool call record: the arguments string is
parsed by json.loads; a parse failure raises. -/
def convToolCall (call : OpenAIChatCompletionMessageToolCall) : Except String ToolCall :=
  match json_loads call.function.arguments with
  | none => Except.error ("json.decoder.JSONDecodeError: " ++ call.function.arguments)
  | some args =>
    Except.ok { call_id := call.id, tool_name := call.function.name, arguments := args }

/-- Mapping of _convert_openai_tool_calls: an absent or empty input list
yields the empty list; otherwise each record has its arguments string
parsed by json.loads, the first parse failure raising (modelled by
Except.error). -/
def _convert_openai_tool_calls
    (tool_calls : Option (List OpenAIChatCompletionMessageToolCall)) :
    Except String (List ToolCall) :=
  if optListTruthy tool_calls then (tool_calls.getD []).mapM convToolCall
  else Except.ok []

/-- Provider tool call record built from an id, a name and an argument
mapping serialized by json.dumps. -/
def mkProviderCall (s : String × String × JObj) : OpenAIChatCompletionMessageToolCall :=
  { id := s.1, function := { arguments := json_dumps s.2.2, name := s.2.1 } }

/-- Stack tool call expected for the same id, name and mapping. -/
def mkStackCall (s : String × String × JObj) : ToolCall :=
  { call_id := s.1, tool_name := s.2.1, arguments := s.2.2 }

/-- Log probability numeric values are floats in the source; they are
never computed with, only carried through, so an opaque integer carrier
stands in for them. -/
abbrev LogProbValue := Int

/-- OpenAI TopLogprob record. -/
structure OpenAITopLogprob where
  token : String
  logprob : LogProbValue
  deriving DecidableEq, Repr

/-- OpenAI ChatCompletionTokenLogprob record. -/
structure OpenAIChatCompletionTokenLogprob where
  token : String
  logprob : LogProbValue
  top_logprobs : List OpenAITopLogprob
  deriving DecidableEq, Repr

/-- OpenAI ChoiceLogprobs record. -/
structure OpenAIChoiceLogprobs where
  content : List OpenAIChatCompletionTokenLogprob
  deriving DecidableEq, Repr

/-- Insertion into a Python dict model: a repeated key keeps its first
position and takes the new value, a new key is appended. -/
def dictInsert (d : List (String × LogProbValue)) (k : String) (v : LogProbValue) :
    List (String × LogProbValue) :=
  if d.any (fun kv => kv.1 = k) then
    d.map (fun kv => if kv.1 = k then (k, v) else kv)
  else d ++ [(k, v)]

/-- Python dict built from a list of pairs, as a dict comprehension
does: later pairs with the same key overwrite earlier ones. -/
def dictOfPairs (ps : List (String × LogProbValue)) : List (String × LogProbValue) :=
  ps.foldl (fun d kv => dictInsert d kv.1 kv.2) []

/-- Stack schema TokenLogProbs record. -/
structure TokenLogProbs where
  logprobs_by_token : List (String × LogProbValue)
  deriving DecidableEq, Repr

/-- Mapping of _convert_openai_logprobs: absent input yields absent
output, otherwise one TokenLogProbs per content position, flattening the
top alternatives of that position into one dict. -/
def _convert_openai_logprobs (logprobs : Option OpenAIChoiceLogprobs) :
    Option (List TokenLogProbs) :=
  match logprobs with
  | none => none
  | some lp =>
    some (lp.content.map (fun content =>
      { logprobs_by_token :=
          dictOfPairs (content.top_logprobs.map (fun t => (t.token, t.logprob))) }))

/-! ## Non stream response mapper -/

/-- OpenAI ChatCompletionMessage of a non streamed choice. -/
structure OpenAIChatMessage where
  content : Option String
  tool_calls : Option (List OpenAIChatCompletionMessageToolCall)
  deriving DecidableEq, Repr

/-- OpenAI Choice of a non streamed response.  The message field is
optional here to model the hasattr and truthiness assertion of the
source. -/
structure OpenAIChoice where
  message : Option OpenAIChatMessage
  finish_reason : Option String
  logprobs : Option OpenAIChoiceLogprobs
  deriving DecidableEq, Repr

/-- Stack schema CompletionMessage with the fields the source sets; the
role is the literal assistant and is omitted. -/
structure CompletionMessage where
  content : String
  stop_reason : StopReason
  tool_calls : List ToolCall
  deriving DecidableEq, Repr

/-- Stack schema ChatCompletionResponse. -/
structure ChatCompletionResponse where
  completion_message : CompletionMessage
  logprobs : Option (List TokenLogProbs)
  deriving DecidableEq, Repr

/-- Mapping of convert_openai_chat_completion_choice: asserts a truthy
message and a truthy finish reason (Except.error models a raised
AssertionError), then builds the response; a tool call parse failure
propagates. -/
def convert_openai_chat_completion_choice (choice : OpenAIChoice) :
    Except String ChatCompletionResponse :=
  match choice.message with
  | none => Except.error "error in server response: message not found"
  | some message =>
    if optStrTruthy choice.finish_reason then
      match _convert_openai_tool_calls message.tool_calls with
      | Except.error e => Except.error e
      | Except.ok tcs =>
        Except.ok
          { completion_message :=
              { content := pyStrOr message.content ""
                stop_reason := _convert_openai_finish_reason choice.finish_reason
                tool_calls := tcs }
            logprobs := _convert_openai_logprobs choice.logprobs }
    else Except.error "error in server response: finish_reason not found"

/-! ## Request mapper -/

/-- Stack schema message roles. -/
inductive Role where
  | system
  | user
  | assistant
  | ipython
  deriving DecidableEq, Repr

/-- String value of a role. -/
def roleString : Role → String
  | Role.system => "system"
  | Role.user => "user"
  | Role.assistant => "assistant"
  | Role.ipython => "ipython"

/-- String value of a StopReason enum member. -/
def stopReasonValue : StopReason → String
  | StopReason.end_of_turn => "end_of_turn"
  | StopReason.end_of_message => "end_of_message"
  | StopReason.out_of_tokens => "out_of_tokens"

/-- Stack schema Message; the stop_reason field is present only on
completion messages, modelled by an Option. -/
structure Message where
  role : Role
  content : String
  stop_reason : Option StopReason
  deriving DecidableEq, Repr

/-- Dictionary form of a message sent to the provider. -/
structure MessageDict where
  role : String
  content : String
  stop_reason : Option String
  deriving DecidableEq, Repr

/-- Mapping of _convert_message: the role ipython is renamed to tool and
the stop reason enum is unwrapped to its string value. -/
def _convert_message (message : Message) : MessageDict :=
  { role := if roleString message.role = "ipython" then "tool" else roleString message.role
    content := message.content
    stop_reason := message.stop_reason.map stopReasonValue }

/-- Sampling parameters of the stack schema.  Temperature, top_p and
repetition_penalty are floats carried through unchanged, modelled by the
opaque integer carrier; max_tokens uses Python truthiness (zero is
falsy). -/
structure SamplingParams where
  strategy : String
  temperature : LogProbValue
  top_p : LogProbValue
  top_k : Int
  repetition_penalty : LogProbValue
  max_tokens : Nat
  deriving DecidableEq, Repr

/-- Log probability request of the stack schema. -/
structure LogProbConfig where
  top_k : Nat
  deriving DecidableEq, Repr

/-- Tool definitions are forwarded verbatim by the source; they are
modelled as opaque tokens. -/
abbrev ToolDefinition := String

/-- Stack schema ChatCompletionRequest.  The tools field defaults to an
empty list in the schema, so absence is the empty list; tool_choice is
an optional enum whose value string is stored directly. -/
structure ChatCompletionRequest where
  model : String
  messages : List Message
  sampling_params : Option SamplingParams
  tools : List ToolDefinition
  tool_choice : Option String
  logprobs : Option LogProbConfig
  stream : Bool
  deriving DecidableEq, Repr

/-- The nvext extension bag of the provider payload. -/
structure NVExt where
  top_k : Option Int
  repetition_penalty : Option LogProbValue
  deriving DecidableEq, Repr

/-- Provider request payload: the open dictionary of the source is
modelled as a record with an Option field per optional key, a key being
present exactly when the field is some. -/
structure Payload where
  model : String
  messages : List MessageDict
  stream : Bool
  n : Nat
  nvext : NVExt
  tools : Option (List ToolDefinition)
  tool_choice : Option String
  logprobs : Option Bool
  top_logprobs : Option Nat
  max_tokens : Option Nat
  temperature : Option LogProbValue
  top_p : Option LogProbValue
  deriving DecidableEq, Repr

/-- Mapping of convert_chat_completion_request.  The second component of
the result collects the warnings.warn messages emitted on the way, so
that the non fatal warning of the top_k branch is observable. -/
def convert_chat_completion_request (request : ChatCompletionRequest) (n : Nat) :
    Payload × List String :=
  let base : Payload :=
    { model := request.model
      messages := request.messages.map _convert_message
      stream := request.stream
      n := n
      nvext := { top_k := none, repetition_penalty := none }
      tools := none
      tool_choice := none
      logprobs := none
      top_logprobs := none
      max_tokens := none
      temperature := none
      top_p := none }
  let p1 :=
    if request.tools.isEmpty then base
    else { base with tools := some request.tools, tool_choice := request.tool_choice }
  -- the source guards the tool_choice update with `if request.tool_choice:`; the
  -- field is an enum member, always truthy when present, so copying the Option
  -- directly is the same dictionary (no key when absent, the value when present)
  let p2 :=
    match request.logprobs with
    | none => p1
    | some cfg => { p1 with logprobs := some true, top_logprobs := some cfg.top_k }
  match request.sampling_params with
  | none => (p2, [])
  | some sp =>
    let p3 := { p2 with nvext := { p2.nvext with repetition_penalty := some sp.repetition_penalty } }
    let p4 := if sp.max_tokens ≠ 0 then { p3 with max_tokens := some sp.max_tokens } else p3
    if sp.strategy = "top_p" then
      ({ p4 with nvext := { p4.nvext with top_k := some (-1) }, top_p := some sp.top_p }, [])
    else if sp.strategy = "top_k" then
      let warns := if sp.top_k ≠ -1 ∧ sp.top_k < 1 then ["top_k must be -1 or >= 1"] else []
      ({ p4 with nvext := { p4.nvext with top_k := some sp.top_k } }, warns)
    else if sp.strategy = "greedy" then
      ({ p4 with nvext := { p4.nvext with top_k := some (-1) }, temperature := some sp.temperature }, [])
    else (p4, [])

/-! ## Stream response mapper -/

/-- OpenAI ChoiceDelta of a stream chunk. -/
structure ChoiceDelta where
  content : Option String
  tool_calls : Option (List OpenAIChatCompletionMessageToolCall)
  deriving DecidableEq, Repr

/-- OpenAI Choice of a stream chunk. -/
structure OpenAIChunkChoice where
  delta : ChoiceDelta
  finish_reason : Option String
  logprobs : Option OpenAIChoiceLogprobs
  deriving DecidableEq, Repr

/-- OpenAI ChatCompletionChunk: the source reads only the first choice,
by indexing, which raises on an empty list. -/
structure OpenAIChatCompletionChunk where
  choices : List OpenAIChunkChoice
  deriving DecidableEq, Repr

/-- Stack schema ToolCallDelta as the source builds it: a complete tool
call with a parse status. -/
structure ToolCallDelta where
  content : ToolCall
  parse_status : ToolCallParseStatus
  deriving DecidableEq, Repr

/-- Delta of a stream event: a string fragment or a tool call delta. -/
inductive EventDelta where
  | text : String → EventDelta
  | toolCall : ToolCallDelta → EventDelta
  deriving DecidableEq, Repr

/-- Stack schema ChatCompletionResponseEvent. -/
structure ChatCompletionResponseEvent where
  event_type : ChatCompletionResponseEventType
  delta : EventDelta
  logprobs : Option (List TokenLogProbs)
  stop_reason : Option StopReason
  deriving DecidableEq, Repr

/-- Stack schema ChatCompletionResponseStreamChunk. -/
structure ChatCompletionResponseStreamChunk where
  event : ChatCompletionResponseEvent
  deriving DecidableEq, Repr

/-- Builder for one emitted stream chunk. -/
def mkEvent (et : ChatCompletionResponseEventType) (d : EventDelta)
    (lp : Option (List TokenLogProbs)) (sr : Option StopReason) :
    ChatCompletionResponseStreamChunk :=
  { event := { event_type := et, delta := d, logprobs := lp, stop_reason := sr } }

/-- State carried across chunks by the stream mapper: the event type
generator (start on the first emission, progress afterwards) is the
started flag, and the latched stop reason is the Option field. -/
structure StreamState where
  started : Bool
  stop_reason : Option StopReason
  deriving DecidableEq, Repr

/-- Event type produced by the next(event_type) generator call, given
whether an event was already emitted. -/
def eventTypeAt (started : Bool) : ChatCompletionResponseEventType :=
  if started then ChatCompletionResponseEventType.progress
  else ChatCompletionResponseEventType.start

/-- Python truthiness of a StopReason enum member: enum members are
always truthy. -/
def stopReasonTruthy (_ : StopReason) : Bool := true

/-- Model of the source line
stop_reason = _convert_openai_finish_reason(choice.finish_reason) or stop_reason.
The left operand of the or is a StopReason enum member and those are
always truthy in Python, so the or never falls back to the previous
value. -/
def latchStopReason (finish_reason : Option String) (prev : Option StopReason) :
    Option StopReason :=
  let mapped := _convert_openai_finish_reason finish_reason
  if stopReasonTruthy mapped then some mapped else prev

/-- Warning emitted when a delta carries more than one tool call. -/
def chunkWarnings (tcs : List OpenAIChatCompletionMessageToolCall) : List String :=
  if tcs.length > 1 then
    ["multiple tool calls found in a single delta, using the first, ignoring the rest"]
  else []

/-- Processing of one stream choice: returns the new state, the emitted
events in order, the emitted warnings, and an error when the iteration
raises (a tool call argument parse failure).  Mirrors the loop body of
convert_openai_chat_completion_stream. -/
def processChoice (st : StreamState) (choice : OpenAIChunkChoice) :
    StreamState × List ChatCompletionResponseStreamChunk × List String × Option String :=
  let sr := latchStopReason choice.finish_reason st.stop_reason
  let lp := _convert_openai_logprobs choice.logprobs
  if optListTruthy choice.delta.tool_calls then
    let tcs := choice.delta.tool_calls.getD []
    let contentEvents :=
      if optStrTruthy choice.delta.content then
        [mkEvent (eventTypeAt st.started) (EventDelta.text (choice.delta.content.getD "")) lp none]
      else []
    let started1 := st.started || optStrTruthy choice.delta.content
    match _convert_openai_tool_calls choice.delta.tool_calls with
    | Except.error e => ({ started := started1, stop_reason := sr }, contentEvents, chunkWarnings tcs, some e)
    | Except.ok converted =>
      match converted.head? with
      | none =>
        ({ started := started1, stop_reason := sr }, contentEvents, chunkWarnings tcs,
          some "IndexError: list index out of range")
      | some tc =>
        ({ started := true, stop_reason := sr },
          contentEvents ++
            [mkEvent (eventTypeAt started1)
              (EventDelta.toolCall { content := tc, parse_status := ToolCallParseStatus.success })
              lp none],
          chunkWarnings tcs, none)
  else
    ({ started := true, stop_reason := sr },
      [mkEvent (eventTypeAt st.started) (EventDelta.text (pyStrOr choice.delta.content "")) lp none],
      [], none)

/-- Processing of one stream chunk: the source indexes choices at zero,
which raises IndexError on an empty list. -/
def processChunk (st : StreamState) (chunk : OpenAIChatCompletionChunk) :
    StreamState × List ChatCompletionResponseStreamChunk × List String × Option String :=
  match chunk.choices.head? with
  | none => (st, [], [], some "IndexError: list index out of range")
  | some choice => processChoice st choice

/-- Fold of the stream mapper over the remaining chunks: on exhaustion a
single complete event with empty delta and the latched stop reason is
emitted; an error stops the iteration at the offending chunk, keeping
the events already yielded. -/
def runStream (st : StreamState) :
    List OpenAIChatCompletionChunk →
    List ChatCompletionResponseStreamChunk × List String × Option String
  | [] =>
    ([mkEvent ChatCompletionResponseEventType.complete (EventDelta.text "") none st.stop_reason],
      [], none)
  | chunk :: rest =>
    match processChunk st chunk with
    | (st1, evs, ws, none) =>
      let r := runStream st1 rest
      (evs ++ r.1, ws ++ r.2.1, r.2.2)
    | (_, evs, ws, some e) => (evs, ws, some e)

/-- Mapping of convert_openai_chat_completion_stream over a finite input
stream, starting with a fresh event type generator and an absent stop
reason. -/
def convert_openai_chat_completion_stream (chunks : List OpenAIChatCompletionChunk) :
    List ChatCompletionResponseStreamChunk × List String × Option String :=
  runStream { started := false, stop_reason := none } chunks

/-- Event types of a list of emitted stream chunks. -/
def eventTypes (evs : List ChatCompletionResponseStreamChunk) :
    List ChatCompletionResponseEventType :=
  evs.map (fun ev => ev.event.event_type)

/-- Well formedness of a stream choice: every tool call argument string
in its delta parses. -/
def wfChoice (choice : OpenAIChunkChoice) : Bool :=
  match choice.delta.tool_calls with
  | none => true
  | some tcs => tcs.all (fun tc => (json_loads tc.function.arguments).isSome)

/-- Well formedness of an input chunk: it carries at least one choice
and every tool call argument string of the first choice parses. -/
def wfChunk (chunk : OpenAIChatCompletionChunk) : Bool :=
  match chunk.choices.head? with
  | none => false
  | some choice => wfChoice choice

/-- A chunk whose first choice carries a truthy tool call list holding
at least one argument string that does not parse. -/
def chunkHasBadToolArgs (chunk : OpenAIChatCompletionChunk) : Bool :=
  match chunk.choices.head? with
  | none => false
  | some choice =>
    optListTruthy choice.delta.tool_calls &&
      (choice.delta.tool_calls.getD []).any (fun tc => (json_loads tc.function.arguments).isNone)

/-- Checker for the middle and tail of the lifecycle shape: zero or more
progress events followed by exactly one complete event. -/
def isProgressThenComplete : List ChatCompletionResponseEventType → Bool
  | [ChatCompletionResponseEventType.complete] => true
  | ChatCompletionResponseEventType.progress :: rest => isProgressThenComplete rest
  | _ => false

/-- Checker for the claimed lifecycle shape of an event type sequence:
exactly one leading start event, zero or more progress events, exactly
one trailing complete event. -/
def isLifecycleShape : List ChatCompletionResponseEventType → Bool
  | ChatCompletionResponseEventType.start :: rest => isProgressThenComplete rest
  | _ => false

/-! ## Concrete inputs used by evaluation theorems and witnesses -/

/-- Base request used by concrete request mapper inputs. -/
def reqBase : ChatCompletionRequest :=
  { model := "meta/llama-3.1-8b-instruct", messages := [], sampling_params := none,
    tools := [], tool_choice := none, logprobs := none, stream := false }

/-- Sampling parameters used by concrete request mapper inputs. -/
def spBase : SamplingParams :=
  { strategy := "greedy", temperature := 7, top_p := 3, top_k := 5,
    repetition_penalty := 1, max_tokens := 0 }

/-- A stream chunk carrying content and no finish reason. -/
def contentChunk (s : String) : OpenAIChatCompletionChunk :=
  { choices := [{ delta := { content := some s, tool_calls := none },
                  finish_reason := none, logprobs := none }] }

/-- A stream chunk carrying only a finish reason. -/
def finishChunk (fr : String) : OpenAIChatCompletionChunk :=
  { choices := [{ delta := { content := none, tool_calls := none },
                  finish_reason := some fr, logprobs := none }] }

/-- A well formed provider tool call with empty JSON object arguments. -/
def okToolCall : OpenAIChatCompletionMessageToolCall :=
  { id := "1", function := { arguments := json_dumps [], name := "f" } }

/-- Stack tool call matching okToolCall after conversion. -/
def okStackCall : ToolCall := { call_id := "1", tool_name := "f", arguments := [] }

/-- A stream choice whose delta carries both content and one tool call. -/
def contentAndToolChoice : OpenAIChunkChoice :=
  { delta := { content := some "x", tool_calls := some [okToolCall] },
    finish_reason := none, logprobs := none }

/-- A stream chunk whose delta carries both content and one tool call. -/
def contentAndToolChunk : OpenAIChatCompletionChunk :=
  { choices := [contentAndToolChoice] }

/-- Sampling parameters with strategy top_p. -/
def spTopP : SamplingParams := { spBase with strategy := "top_p" }

/-- Request carrying the top_p sampling parameters. -/
def reqTopP : ChatCompletionRequest := { reqBase with sampling_params := some spTopP }

/-- Sampling parameters with strategy top_k and an out of range value. -/
def spTopK0 : SamplingParams := { spBase with strategy := "top_k", top_k := 0 }

/-- Request carrying the out of range top_k sampling parameters. -/
def reqTopK0 : ChatCompletionRequest := { reqBase with sampling_params := some spTopK0 }

/-- Request carrying the greedy sampling parameters. -/
def reqGreedy : ChatCompletionRequest := { reqBase with sampling_params := some spBase }

/-- Sampling parameters with an unrecognized strategy. -/
def spOther : SamplingParams := { spBase with strategy := "mirostat" }

/-- Request carrying the unrecognized strategy. -/
def reqOther : ChatCompletionRequest := { reqBase with sampling_params := some spOther }

/-- Request with tools set and tool_choice unset. -/
def reqToolsOnly : ChatCompletionRequest := { reqBase with tools := ["tool_def_1"] }

/-- Request with tool_choice set and tools unset. -/
def reqChoiceOnly : ChatCompletionRequest := { reqBase with tool_choice := some "auto" }

/-- Request with both tools and tool_choice set. -/
def reqToolsAndChoice : ChatCompletionRequest :=
  { reqBase with tools := ["tool_def_1"], tool_choice := some "required" }

/-- A provider tool call whose arguments string is not valid JSON. -/
def badToolCall : OpenAIChatCompletionMessageToolCall :=
  { id := "2", function := { arguments := "not json", name := "g" } }

/-- A stream chunk whose delta carries a tool call with bad arguments. -/
def badToolChunk : OpenAIChatCompletionChunk :=
  { choices := [{ delta := { content := none, tool_calls := some [badToolCall] },
                  finish_reason := none, logprobs := none }] }

/-- A well formed non stream choice. -/
def okChoice : OpenAIChoice :=
  { message := some { content := some "hello", tool_calls := none },
    finish_reason := some "stop", logprobs := none }

/-- A non stream choice missing its message. -/
def noMessageChoice : OpenAIChoice :=
  { message := none, finish_reason := some "stop", logprobs := none }

/-- A non stream choice with an empty finish reason. -/
def emptyFinishChoice : OpenAIChoice :=
  { message := some { content := some "hello", tool_calls := none },
    finish_reason := some "", logprobs := none }

/-! ## Lemmas about the json model -/

theorem digitChar_isDigit {d : Nat} (h : d < 10) : (digitChar d).isDigit = true := by
  interval_cases d <;> decide

theorem digitChar_val {d : Nat} (h : d < 10) : (digitChar d).toNat - 48 = d := by
  interval_cases d <;> decide

theorem isDigit_ne_quote {c : Char} (h : c.isDigit = true) : ¬ c = '"' := by
  intro he
  rw [he] at h
  exact absurd h (by decide)

theorem natToCharsFuel_lt10 {n : Nat} (h : n < 10) (fuel : Nat) (acc : List Char) :
    natToCharsFuel fuel n acc = digitChar n :: acc := by
  cases fuel with
  | zero => simp [natToCharsFuel, Nat.mod_eq_of_lt h]
  | succ f => simp [natToCharsFuel, h]

theorem natToCharsFuel_irrel : ∀ (n f1 f2 : Nat) (acc : List Char), n ≤ f1 → n ≤ f2 →
    natToCharsFuel f1 n acc = natToCharsFuel f2 n acc := by
  intro n
  induction n using Nat.strong_induction_on with
  | _ n ih =>
    intro f1 f2 acc h1 h2
    by_cases hlt : n < 10
    · rw [natToCharsFuel_lt10 hlt, natToCharsFuel_lt10 hlt]
    · have hdiv : n / 10 < n := Nat.div_lt_self (by omega) (by omega)
      cases f1 with
      | zero => omega
      | succ g1 =>
        cases f2 with
        | zero => omega
        | succ g2 =>
          simp only [natToCharsFuel, if_neg hlt]
          exact ih (n / 10) hdiv g1 g2 _ (by omega) (by omega)

theorem natToChars_lt10 {n : Nat} (h : n < 10) : natToChars n = [digitChar n] := by
  rw [natToChars, natToCharsFuel_lt10 h]

theorem natToCharsFuel_acc : ∀ (n : Nat) (acc : List Char),
    natToCharsFuel n n acc = natToChars n ++ acc := by
  intro n
  induction n using Nat.strong_induction_on with
  | _ n ih =>
    intro acc
    by_cases hlt : n < 10
    · rw [natToCharsFuel_lt10 hlt, natToChars_lt10 hlt]
      rfl
    · have hdiv : n / 10 < n := Nat.div_lt_self (by omega) (by omega)
      cases n with
      | zero => omega
      | succ g =>
        have e1 : ∀ a : List Char, natToCharsFuel (g + 1) (g + 1) a
            = natToCharsFuel ((g + 1) / 10) ((g + 1) / 10) (digitChar ((g + 1) % 10) :: a) := by
          intro a
          have hstep : natToCharsFuel (g + 1) (g + 1) a
              = natToCharsFuel g ((g + 1) / 10) (digitChar ((g + 1) % 10) :: a) := by
            simp only [natToCharsFuel, if_neg hlt]
          rw [hstep]
          exact natToCharsFuel_irrel ((g + 1) / 10) g ((g + 1) / 10) _ (by omega) (by omega)
        calc natToCharsFuel (g + 1) (g + 1) acc
            = natToCharsFuel ((g + 1) / 10) ((g + 1) / 10) (digitChar ((g + 1) % 10) :: acc) :=
              e1 acc
          _ = natToChars ((g + 1) / 10) ++ (digitChar ((g + 1) % 10) :: acc) :=
              ih ((g + 1) / 10) hdiv _
          _ = (natToChars ((g + 1) / 10) ++ [digitChar ((g + 1) % 10)]) ++ acc := by simp
          _ = natToCharsFuel ((g + 1) / 10) ((g + 1) / 10) [digitChar ((g + 1) % 10)] ++ acc := by
              rw [ih ((g + 1) / 10) hdiv]
          _ = natToCharsFuel (g + 1) (g + 1) [] ++ acc := by rw [← e1 ([])]
          _ = natToChars (g + 1) ++ acc := rfl

theorem natToChars_ge10 {n : Nat} (h : 10 ≤ n) :
    natToChars n = natToChars (n / 10) ++ [digitChar (n % 10)] := by
  have hne : ¬ n < 10 := by omega
  cases n with
  | zero => omega
  | succ g =>
    calc natToChars (g + 1) = natToCharsFuel (g + 1) (g + 1) [] := rfl
      _ = natToCharsFuel g ((g + 1) / 10) [digitChar ((g + 1) % 10)] := by
          simp only [natToCharsFuel, if_neg hne]
      _ = natToCharsFuel ((g + 1) / 10) ((g + 1) / 10) [digitChar ((g + 1) % 10)] :=
          natToCharsFuel_irrel ((g + 1) / 10) g ((g + 1) / 10) _ (by omega) (by omega)
      _ = natToChars ((g + 1) / 10) ++ [digitChar ((g + 1) % 10)] := natToCharsFuel_acc _ _

theorem natToChars_all_digits : ∀ n : Nat, ∀ c ∈ natToChars n, c.isDigit = true := by
  intro n
  induction n using Nat.strong_induction_on with
  | _ n ih =>
    by_cases hlt : n < 10
    · rw [natToChars_lt10 hlt]
      intro c hc
      rw [List.mem_singleton] at hc
      rw [hc]
      exact digitChar_isDigit hlt
    · have hdiv : n / 10 < n := Nat.div_lt_self (by omega) (by omega)
      rw [natToChars_ge10 (by omega)]
      intro c hc
      rcases List.mem_append.mp hc with h | h
      · exact ih (n / 10) hdiv c h
      · rw [List.mem_singleton] at h
        rw [h]
        exact digitChar_isDigit (Nat.mod_lt n (by omega))

theorem natToChars_ne_nil (n : Nat) : natToChars n ≠ [] := by
  by_cases hlt : n < 10
  · rw [natToChars_lt10 hlt]
    simp
  · rw [natToChars_ge10 (by omega)]
    simp

theorem foldl_natToChars : ∀ (n : Nat) (acc : Nat),
    (natToChars n).foldl (fun a c => a * 10 + (c.toNat - 48)) acc
      = acc * 10 ^ (natToChars n).length + n := by
  intro n
  induction n using Nat.strong_induction_on with
  | _ n ih =>
    intro acc
    by_cases hlt : n < 10
    · rw [natToChars_lt10 hlt]
      simp only [List.foldl_cons, List.foldl_nil, List.length_cons, List.length_nil, pow_one,
        Nat.zero_add]
      rw [digitChar_val hlt]
    · have hdiv : n / 10 < n := Nat.div_lt_self (by omega) (by omega)
      rw [natToChars_ge10 (by omega), List.foldl_append, List.length_append]
      rw [ih (n / 10) hdiv acc]
      simp only [List.foldl_cons, List.foldl_nil, List.length_cons, List.length_nil]
      rw [digitChar_val (Nat.mod_lt n (by omega))]
      calc (acc * 10 ^ (natToChars (n / 10)).length + n / 10) * 10 + n % 10
          = acc * (10 ^ (natToChars (n / 10)).length * 10) + (n / 10 * 10 + n % 10) := by ring
        _ = acc * 10 ^ ((natToChars (n / 10)).length + (0 + 1)) + n := by
            rw [Nat.zero_add, pow_succ]
            congr 1
            omega

theorem parseNatAux_digits : ∀ (ds : List Char) (acc : Nat) (rest : List Char),
    (∀ c ∈ ds, c.isDigit = true) →
    (∀ c, rest.head? = some c → c.isDigit = false) →
    parseNatAux acc (ds ++ rest) = (ds.foldl (fun a c => a * 10 + (c.toNat - 48)) acc, rest) := by
  intro ds
  induction ds with
  | nil =>
    intro acc rest _ hrest
    cases rest with
    | nil => rfl
    | cons c rs =>
      have hc : c.isDigit = false := hrest c rfl
      simp [parseNatAux, hc]
  | cons d ds ih =>
    intro acc rest hds hrest
    have hd : d.isDigit = true := hds d (List.mem_cons_self d ds)
    simp only [List.cons_append, parseNatAux, hd, if_true, List.foldl_cons]
    exact ih _ rest (fun c hc => hds c (List.mem_cons_of_mem d hc)) hrest

theorem parseNat_natToChars (n : Nat) (rest : List Char)
    (hrest : ∀ c, rest.head? = some c → c.isDigit = false) :
    parseNat (natToChars n ++ rest) = some (n, rest) := by
  obtain ⟨c, cs, hc⟩ := List.exists_cons_of_ne_nil (natToChars_ne_nil n)
  have hcd : c.isDigit = true := by
    apply natToChars_all_digits n
    rw [hc]
    exact List.mem_cons_self c cs
  have key : parseNatAux 0 (natToChars n ++ rest) = (n, rest) := by
    rw [parseNatAux_digits (natToChars n) 0 rest (natToChars_all_digits n) hrest,
      foldl_natToChars]
    simp
  rw [hc] at key ⊢
  simp only [List.cons_append, parseNat, hcd, if_true]
  rw [← List.cons_append, key]

theorem parseStrAux_no_quote : ∀ (s : List Char) (rest : List Char),
    (∀ c ∈ s, ¬ c = '"') →
    parseStrAux (s ++ '"' :: rest) = some (s, rest) := by
  intro s
  induction s with
  | nil =>
    intro rest _
    simp [parseStrAux]
  | cons c cs ih =>
    intro rest hs
    have hc : ¬ c = '"' := hs c (List.mem_cons_self c cs)
    simp only [List.cons_append, parseStrAux, if_neg hc, List.append_eq]
    rw [ih rest (fun x hx => hs x (List.mem_cons_of_mem c hx))]
    rfl

theorem goodString_no_quote {k : String} (h : goodString k = true) :
    ∀ c ∈ k.data, ¬ c = '"' := by
  intro c hc he
  have hck := List.all_eq_true.mp h c hc
  rw [he] at hck
  simp at hck

theorem string_mk_data (k : String) : String.mk k.data = k := rfl

theorem parseStringLit_quoteString (k : String) (rest : List Char)
    (hk : goodString k = true) :
    parseStringLit (quoteString k ++ rest) = some (k, rest) := by
  have e : quoteString k ++ rest = '"' :: (k.data ++ '"' :: rest) := by
    simp [quoteString]
  rw [e]
  simp only [parseStringLit, if_pos rfl]
  rw [parseStrAux_no_quote k.data rest (goodString_no_quote hk)]
  simp [string_mk_data]

theorem parseJVal_serialize (v : JVal) (rest : List Char)
    (hv : goodVal v = true)
    (hrest : ∀ c, rest.head? = some c → c.isDigit = false) :
    parseJVal (serializeJVal v ++ rest) = some (v, rest) := by
  cases v with
  | jstr s =>
    have e : serializeJVal (JVal.jstr s) ++ rest = '"' :: (s.data ++ '"' :: rest) := by
      simp [serializeJVal, quoteString]
    rw [e]
    simp only [parseJVal, if_pos rfl]
    have hq : ('"' : Char) :: (s.data ++ '"' :: rest) = quoteString s ++ rest := by
      simp [quoteString]
    rw [hq, parseStringLit_quoteString s rest hv]
    rfl
  | jnum n =>
    obtain ⟨c, cs, hc⟩ := List.exists_cons_of_ne_nil (natToChars_ne_nil n)
    have hcd : c.isDigit = true := by
      apply natToChars_all_digits n
      rw [hc]
      exact List.mem_cons_self c cs
    have e : serializeJVal (JVal.jnum n) ++ rest = c :: (cs ++ rest) := by
      simp [serializeJVal, hc]
    rw [e]
    have hq : ¬ c = '"' := isDigit_ne_quote hcd
    simp only [parseJVal, if_neg hq, hcd, if_true]
    have hkey := parseNat_natToChars n rest hrest
    rw [hc, List.cons_append] at hkey
    rw [hkey]
    rfl

theorem parseEntry_serialize (k : String) (v : JVal) (rest : List Char)
    (hk : goodString k = true) (hv : goodVal v = true)
    (hrest : ∀ c, rest.head? = some c → c.isDigit = false) :
    parseEntry (serializeEntry (k, v) ++ rest) = some ((k, v), rest) := by
  have e : serializeEntry (k, v) ++ rest = quoteString k ++ (':' :: (serializeJVal v ++ rest)) := by
    simp [serializeEntry]
  rw [e]
  simp only [parseEntry, parseStringLit_quoteString k _ hk]
  simp only [parseEntryRest, if_pos rfl]
  rw [parseJVal_serialize v rest hv hrest]
  simp

theorem goodObj_cons {kv : String × JVal} {tl : JObj} (h : goodObj (kv :: tl) = true) :
    (goodString kv.1 = true ∧ goodVal kv.2 = true) ∧ goodObj tl = true := by
  rw [goodObj, List.all_cons, Bool.and_eq_true, Bool.and_eq_true] at h
  exact h

theorem parseEntriesAux_serialize : ∀ (m : JObj) (fuel : Nat) (rest : List Char),
    m ≠ [] → goodObj m = true → m.length ≤ fuel →
    rest.head? ≠ some ',' →
    (∀ c, rest.head? = some c → c.isDigit = false) →
    parseEntriesAux fuel (serializeEntries m ++ rest) = some (m, rest) := by
  intro m
  induction m with
  | nil => intro fuel rest hne; exact absurd rfl hne
  | cons kv tl ih =>
    intro fuel rest _ hgood hfuel hcomma hdigit
    obtain ⟨k, v⟩ := kv
    have hks : goodString k = true := (goodObj_cons hgood).1.1
    have hvs : goodVal v = true := (goodObj_cons hgood).1.2
    cases fuel with
    | zero =>
      rw [List.length_cons] at hfuel
      omega
    | succ f =>
      cases tl with
      | nil =>
        simp only [serializeEntries, parseEntriesAux,
          parseEntry_serialize k v rest hks hvs hdigit]
        cases rest with
        | nil => rfl
        | cons c rs =>
          have hc : ¬ c = ',' := by
            intro he
            apply hcomma
            rw [List.head?_cons, he]
          simp only [if_neg hc]
      | cons kv2 tl2 =>
        have hassoc : serializeEntries ((k, v) :: kv2 :: tl2) ++ rest
            = serializeEntry (k, v) ++ (',' :: (serializeEntries (kv2 :: tl2) ++ rest)) := by
          simp [serializeEntries]
        rw [hassoc]
        have hcd : ∀ c, (',' :: (serializeEntries (kv2 :: tl2) ++ rest)).head? = some c →
            c.isDigit = false := by
          intro c hc
          rw [List.head?_cons, Option.some.injEq] at hc
          rw [← hc]
          decide
        simp only [parseEntriesAux, parseEntry_serialize k v _ hks hvs hcd, if_pos rfl]
        rw [ih f rest (by simp) (goodObj_cons hgood).2
          (by simp only [List.length_cons] at hfuel ⊢; omega) hcomma hdigit]
        rfl

theorem serializeEntry_length (kv : String × JVal) : 1 ≤ (serializeEntry kv).length := by
  obtain ⟨k, v⟩ := kv
  simp only [serializeEntry, quoteString, List.length_append, List.length_cons]
  omega

theorem length_le_serializeEntries : ∀ m : JObj, m.length ≤ (serializeEntries m).length := by
  intro m
  induction m with
  | nil => simp [serializeEntries]
  | cons kv tl ih =>
    cases tl with
    | nil =>
      have h1 := serializeEntry_length kv
      simp only [serializeEntries, List.length_cons, List.length_nil]
      omega
    | cons kv2 tl2 =>
      have h1 := serializeEntry_length kv
      have h2 : serializeEntries (kv :: kv2 :: tl2)
          = serializeEntry kv ++ ',' :: serializeEntries (kv2 :: tl2) := by
        simp [serializeEntries]
      rw [h2]
      simp only [List.length_append, List.length_cons] at ih ⊢
      omega

theorem serializeEntries_head (m : JObj) (hm : m ≠ []) :
    ∃ t, serializeEntries m = '"' :: t := by
  cases m with
  | nil => exact absurd rfl hm
  | cons kv tl =>
    obtain ⟨k, v⟩ := kv
    cases tl with
    | nil =>
      refine ⟨k.data ++ '"' :: (':' :: serializeJVal v), ?_⟩
      simp [serializeEntries, serializeEntry, quoteString]
    | cons kv2 tl2 =>
      refine ⟨k.data ++ '"' :: (':' :: (serializeJVal v ++ ',' :: serializeEntries (kv2 :: tl2))), ?_⟩
      simp [serializeEntries, serializeEntry, quoteString]

theorem parseObj_dumps (m : JObj) (hm : goodObj m = true) :
    parseObj (lbrace :: (serializeEntries m ++ [rbrace])) = some (m, []) := by
  cases m with
  | nil => decide
  | cons kv tl =>
    obtain ⟨t, ht⟩ := serializeEntries_head (kv :: tl) (by simp)
    have hlen : (kv :: tl).length ≤ (serializeEntries (kv :: tl) ++ [rbrace]).length := by
      have h1 := length_le_serializeEntries (kv :: tl)
      rw [List.length_append]
      omega
    have hparse := parseEntriesAux_serialize (kv :: tl)
      ((serializeEntries (kv :: tl) ++ [rbrace]).length) [rbrace]
      (by simp) hm hlen (by decide)
      (by intro c hc; rw [List.head?_cons, Option.some.injEq] at hc; rw [← hc]; decide)
    simp only [parseObj, if_pos rfl]
    rw [ht] at hparse ⊢
    simp only [List.cons_append] at hparse ⊢
    simp only [parseObjBody, if_neg (show ¬ ('"' : Char) = rbrace by decide)]
    simp only [parseObjTail, hparse]
    rfl

theorem json_loads_dumps (m : JObj) (hm : goodObj m = true) :
    json_loads (json_dumps m) = some m := by
  have hdata : (json_dumps m).data = lbrace :: (serializeEntries m ++ [rbrace]) := rfl
  rw [json_loads, hdata, parseObj_dumps m hm]
  rfl

/-! ## Lemmas about the tool call mapper -/

theorem optListTruthy_eq_true {α : Type} {o : Option (List α)} (h : optListTruthy o = true) :
    ∃ a l, o = some (a :: l) := by
  match o with
  | none => simp [optListTruthy] at h
  | some [] => simp [optListTruthy] at h
  | some (a :: l) => exact ⟨a, l, rfl⟩

theorem convToolCall_mkProviderCall (s : String × String × JObj) (h : goodObj s.2.2 = true) :
    convToolCall (mkProviderCall s) = Except.ok (mkStackCall s) := by
  simp only [convToolCall, mkProviderCall, json_loads_dumps s.2.2 h]
  rfl

theorem mapM_convToolCall_serialize : ∀ (specs : List (String × String × JObj)),
    (∀ s ∈ specs, goodObj s.2.2 = true) →
    (specs.map mkProviderCall).mapM convToolCall = Except.ok (specs.map mkStackCall) := by
  intro specs
  induction specs with
  | nil => intro _; rfl
  | cons s tl ih =>
    intro h
    rw [List.map_cons, List.map_cons, List.mapM_cons,
      convToolCall_mkProviderCall s (h s (List.mem_cons_self s tl)),
      ih (fun x hx => h x (List.mem_cons_of_mem s hx))]
    rfl

theorem mapM_convToolCall_ok : ∀ (tcs : List OpenAIChatCompletionMessageToolCall),
    (∀ tc ∈ tcs, (json_loads tc.function.arguments).isSome = true) →
    ∃ r, tcs.mapM convToolCall = Except.ok r ∧ r.length = tcs.length := by
  intro tcs
  induction tcs with
  | nil => intro _; exact ⟨[], rfl, rfl⟩
  | cons c l ih =>
    intro h
    obtain ⟨args, hargs⟩ := Option.isSome_iff_exists.mp (h c (List.mem_cons_self c l))
    obtain ⟨r, hr, hlen⟩ := ih (fun x hx => h x (List.mem_cons_of_mem c hx))
    have hc : convToolCall c
        = Except.ok { call_id := c.id, tool_name := c.function.name, arguments := args } := by
      simp [convToolCall, hargs]
    refine ⟨{ call_id := c.id, tool_name := c.function.name, arguments := args } :: r, ?_, by
      simp [hlen]⟩
    rw [List.mapM_cons, hc, hr]
    rfl

theorem mapM_convToolCall_error : ∀ (tcs : List OpenAIChatCompletionMessageToolCall),
    (∃ tc ∈ tcs, json_loads tc.function.arguments = none) →
    ∃ e, tcs.mapM convToolCall = Except.error e := by
  intro tcs
  induction tcs with
  | nil =>
    rintro ⟨tc, htc, _⟩
    simp at htc
  | cons c l ih =>
    rintro ⟨tc, htc, hbad⟩
    rcases List.mem_cons.mp htc with heq | hmem
    · subst heq
      refine ⟨"json.decoder.JSONDecodeError: " ++ tc.function.arguments, ?_⟩
      have hc : convToolCall tc
          = Except.error ("json.decoder.JSONDecodeError: " ++ tc.function.arguments) := by
        simp [convToolCall, hbad]
      rw [List.mapM_cons, hc]
      rfl
    · cases hargs : json_loads c.function.arguments with
      | none =>
        refine ⟨"json.decoder.JSONDecodeError: " ++ c.function.arguments, ?_⟩
        have hc : convToolCall c
            = Except.error ("json.decoder.JSONDecodeError: " ++ c.function.arguments) := by
          simp [convToolCall, hargs]
        rw [List.mapM_cons, hc]
        rfl
      | some args =>
        obtain ⟨e, he⟩ := ih ⟨tc, hmem, hbad⟩
        refine ⟨e, ?_⟩
        have hc : convToolCall c
            = Except.ok { call_id := c.id, tool_name := c.function.name, arguments := args } := by
          simp [convToolCall, hargs]
        rw [List.mapM_cons, hc, he]
        rfl

/-! ## Lemmas about the stream response mapper -/

theorem eventTypeAt_ne_complete (b : Bool) :
    eventTypeAt b ≠ ChatCompletionResponseEventType.complete := by
  cases b <;> decide

theorem eventTypes_append (a b : List ChatCompletionResponseStreamChunk) :
    eventTypes (a ++ b) = eventTypes a ++ eventTypes b :=
  List.map_append _ a b

theorem processChoice_no_tools (st : StreamState) (choice : OpenAIChunkChoice)
    (ht : optListTruthy choice.delta.tool_calls = false) :
    processChoice st choice =
      ({ started := true, stop_reason := latchStopReason choice.finish_reason st.stop_reason },
        [mkEvent (eventTypeAt st.started) (EventDelta.text (pyStrOr choice.delta.content ""))
          (_convert_openai_logprobs choice.logprobs) none], [], none) := by
  simp [processChoice, ht]

theorem processChoice_tools_ok (st : StreamState) (choice : OpenAIChunkChoice)
    (tc : ToolCall) (rest : List ToolCall)
    (ht : optListTruthy choice.delta.tool_calls = true)
    (hconv : _convert_openai_tool_calls choice.delta.tool_calls = Except.ok (tc :: rest)) :
    processChoice st choice =
      ({ started := true, stop_reason := latchStopReason choice.finish_reason st.stop_reason },
        (if optStrTruthy choice.delta.content then
          [mkEvent (eventTypeAt st.started) (EventDelta.text (choice.delta.content.getD ""))
            (_convert_openai_logprobs choice.logprobs) none]
         else [])
          ++ [mkEvent (eventTypeAt (st.started || optStrTruthy choice.delta.content))
              (EventDelta.toolCall { content := tc, parse_status := ToolCallParseStatus.success })
              (_convert_openai_logprobs choice.logprobs) none],
        chunkWarnings (choice.delta.tool_calls.getD []), none) := by
  simp [processChoice, ht, hconv]

theorem processChoice_tools_ok_nil (st : StreamState) (choice : OpenAIChunkChoice)
    (ht : optListTruthy choice.delta.tool_calls = true)
    (hconv : _convert_openai_tool_calls choice.delta.tool_calls = Except.ok []) :
    processChoice st choice =
      ({ started := st.started || optStrTruthy choice.delta.content,
         stop_reason := latchStopReason choice.finish_reason st.stop_reason },
        (if optStrTruthy choice.delta.content then
          [mkEvent (eventTypeAt st.started) (EventDelta.text (choice.delta.content.getD ""))
            (_convert_openai_logprobs choice.logprobs) none]
         else []),
        chunkWarnings (choice.delta.tool_calls.getD []),
        some "IndexError: list index out of range") := by
  simp [processChoice, ht, hconv]

theorem processChoice_tools_error (st : StreamState) (choice : OpenAIChunkChoice) (e : String)
    (ht : optListTruthy choice.delta.tool_calls = true)
    (hconv : _convert_openai_tool_calls choice.delta.tool_calls = Except.error e) :
    processChoice st choice =
      ({ started := st.started || optStrTruthy choice.delta.content,
         stop_reason := latchStopReason choice.finish_reason st.stop_reason },
        (if optStrTruthy choice.delta.content then
          [mkEvent (eventTypeAt st.started) (EventDelta.text (choice.delta.content.getD ""))
            (_convert_openai_logprobs choice.logprobs) none]
         else []),
        chunkWarnings (choice.delta.tool_calls.getD []), some e) := by
  simp [processChoice, ht, hconv]

theorem processChoice_no_complete (st : StreamState) (choice : OpenAIChunkChoice) :
    ∀ ev ∈ (processChoice st choice).2.1,
      ev.event.event_type ≠ ChatCompletionResponseEventType.complete := by
  intro ev hev
  by_cases ht : optListTruthy choice.delta.tool_calls = true
  · cases hconv : _convert_openai_tool_calls choice.delta.tool_calls with
    | error e =>
      rw [processChoice_tools_error st choice e ht hconv] at hev
      by_cases hc : optStrTruthy choice.delta.content = true
      · simp [hc, mkEvent] at hev
        rw [hev]
        exact eventTypeAt_ne_complete st.started
      · simp [hc] at hev
    | ok converted =>
      cases converted with
      | nil =>
        rw [processChoice_tools_ok_nil st choice ht hconv] at hev
        by_cases hc : optStrTruthy choice.delta.content = true
        · simp [hc, mkEvent] at hev
          rw [hev]
          exact eventTypeAt_ne_complete st.started
        · simp [hc] at hev
      | cons tc rest =>
        rw [processChoice_tools_ok st choice tc rest ht hconv] at hev
        simp only [Prod.snd, Prod.fst, List.mem_append] at hev
        rcases hev with h | h
        · by_cases hc : optStrTruthy choice.delta.content = true
          · simp [hc, mkEvent] at h
            rw [h]
            exact eventTypeAt_ne_complete st.started
          · simp [hc] at h
        · simp [mkEvent] at h
          rw [h]
          exact eventTypeAt_ne_complete _
  · have ht2 : optListTruthy choice.delta.tool_calls = false := by
      cases hx : optListTruthy choice.delta.tool_calls
      · rfl
      · exact absurd hx ht
    rw [processChoice_no_tools st choice ht2] at hev
    simp [mkEvent] at hev
    rw [hev]
    exact eventTypeAt_ne_complete st.started

theorem processChunk_eq (st : StreamState) (chunk : OpenAIChatCompletionChunk)
    (choice : OpenAIChunkChoice) (h : chunk.choices.head? = some choice) :
    processChunk st chunk = processChoice st choice := by
  simp [processChunk, h]

theorem processChunk_no_complete (st : StreamState) (chunk : OpenAIChatCompletionChunk) :
    ∀ ev ∈ (processChunk st chunk).2.1,
      ev.event.event_type ≠ ChatCompletionResponseEventType.complete := by
  cases h : chunk.choices.head? with
  | none =>
    intro ev hev
    simp [processChunk, h] at hev
  | some choice =>
    rw [processChunk_eq st chunk choice h]
    exact processChoice_no_complete st choice

theorem processChoice_wf (choice : OpenAIChunkChoice) (hwf : wfChoice choice = true)
    (st : StreamState) :
    ∃ sr1 evs ws,
      processChoice st choice = ({ started := true, stop_reason := sr1 }, evs, ws, none) ∧
      eventTypes evs
        = eventTypeAt st.started
            :: List.replicate (evs.length - 1) ChatCompletionResponseEventType.progress ∧
      evs ≠ [] := by
  by_cases ht : optListTruthy choice.delta.tool_calls = true
  · obtain ⟨a, l, htc⟩ := optListTruthy_eq_true ht
    have hall : ∀ tc ∈ a :: l, (json_loads tc.function.arguments).isSome = true := by
      rw [wfChoice, htc] at hwf
      exact List.all_eq_true.mp hwf
    obtain ⟨r, hr, hlen⟩ := mapM_convToolCall_ok (a :: l) hall
    have hconv : _convert_openai_tool_calls choice.delta.tool_calls = Except.ok r := by
      rw [htc]
      simp only [_convert_openai_tool_calls, optListTruthy, if_true, Option.getD_some]
      exact hr
    cases r with
    | nil => simp at hlen
    | cons tc rest =>
      have heq := processChoice_tools_ok st choice tc rest ht hconv
      by_cases hc : optStrTruthy choice.delta.content = true
      · rw [hc, if_pos rfl, Bool.or_true] at heq
        exact ⟨latchStopReason choice.finish_reason st.stop_reason, _, _, heq,
          by simp [eventTypes, mkEvent, eventTypeAt, List.replicate], by simp⟩
      · have hc2 : optStrTruthy choice.delta.content = false := by
          cases hx : optStrTruthy choice.delta.content
          · rfl
          · exact absurd hx hc
        rw [hc2] at heq
        simp only [Bool.false_eq_true, if_false, List.nil_append, Bool.or_false] at heq
        exact ⟨latchStopReason choice.finish_reason st.stop_reason, _, _, heq,
          by simp [eventTypes, mkEvent, List.replicate], by simp⟩
  · have ht2 : optListTruthy choice.delta.tool_calls = false := by
      cases hx : optListTruthy choice.delta.tool_calls
      · rfl
      · exact absurd hx ht
    exact ⟨latchStopReason choice.finish_reason st.stop_reason, _, _,
      processChoice_no_tools st choice ht2,
      by simp [eventTypes, mkEvent, List.replicate], by simp⟩

theorem processChunk_wf (chunk : OpenAIChatCompletionChunk) (hwf : wfChunk chunk = true)
    (st : StreamState) :
    ∃ sr1 evs ws,
      processChunk st chunk = ({ started := true, stop_reason := sr1 }, evs, ws, none) ∧
      eventTypes evs
        = eventTypeAt st.started
            :: List.replicate (evs.length - 1) ChatCompletionResponseEventType.progress ∧
      evs ≠ [] := by
  cases h : chunk.choices.head? with
  | none =>
    rw [wfChunk, h] at hwf
    cases hwf
  | some choice =>
    rw [processChunk_eq st chunk choice h]
    refine processChoice_wf choice ?_ st
    rw [wfChunk, h] at hwf
    exact hwf

theorem isProgressThenComplete_replicate : ∀ k : Nat,
    isProgressThenComplete
      (List.replicate k ChatCompletionResponseEventType.progress
        ++ [ChatCompletionResponseEventType.complete]) = true := by
  intro k
  induction k with
  | zero => rfl
  | succ j ih =>
    rw [List.replicate_succ, List.cons_append]
    simp only [isProgressThenComplete]
    exact ih

theorem runStream_wf_progress : ∀ (chunks : List OpenAIChatCompletionChunk),
    (∀ c ∈ chunks, wfChunk c = true) → ∀ sr : Option StopReason,
    (runStream { started := true, stop_reason := sr } chunks).2.2 = none ∧
    ∃ k, eventTypes (runStream { started := true, stop_reason := sr } chunks).1
      = List.replicate k ChatCompletionResponseEventType.progress
        ++ [ChatCompletionResponseEventType.complete] := by
  intro chunks
  induction chunks with
  | nil =>
    intro _ sr
    exact ⟨rfl, 0, rfl⟩
  | cons c cs ih =>
    intro h sr
    obtain ⟨sr1, evs, ws, hpc, hty, hne⟩ :=
      processChunk_wf c (h c (List.mem_cons_self c cs)) { started := true, stop_reason := sr }
    obtain ⟨herr, k2, hty2⟩ := ih (fun x hx => h x (List.mem_cons_of_mem c hx)) sr1
    constructor
    · simp only [runStream, hpc]
      exact herr
    · refine ⟨(evs.length - 1) + 1 + k2, ?_⟩
      simp only [runStream, hpc]
      have hty3 : eventTypes evs
          = ChatCompletionResponseEventType.progress
              :: List.replicate (evs.length - 1) ChatCompletionResponseEventType.progress := hty
      rw [eventTypes_append, hty3, hty2, ← List.replicate_succ, ← List.append_assoc,
        ← List.replicate_add]

theorem processChunk_bad (chunk : OpenAIChatCompletionChunk)
    (hbad : chunkHasBadToolArgs chunk = true) (st : StreamState) :
    ∃ st1 evs ws e, processChunk st chunk = (st1, evs, ws, some e) := by
  cases h : chunk.choices.head? with
  | none =>
    exact ⟨st, [], [], "IndexError: list index out of range", by simp [processChunk, h]⟩
  | some choice =>
    rw [chunkHasBadToolArgs, h] at hbad
    rw [Bool.and_eq_true] at hbad
    obtain ⟨ht, hany⟩ := hbad
    obtain ⟨tc, htc, hnone⟩ := List.any_eq_true.mp hany
    rw [Option.isNone_iff_eq_none] at hnone
    obtain ⟨a, l, hsome⟩ := optListTruthy_eq_true ht
    have htc2 : tc ∈ a :: l := by
      rw [hsome] at htc
      exact htc
    obtain ⟨e, he⟩ := mapM_convToolCall_error (a :: l) ⟨tc, htc2, hnone⟩
    have hconv : _convert_openai_tool_calls choice.delta.tool_calls = Except.error e := by
      rw [hsome]
      simp only [_convert_openai_tool_calls, optListTruthy, if_true, Option.getD_some]
      exact he
    rw [processChunk_eq st chunk choice h,
      processChoice_tools_error st choice e ht hconv]
    exact ⟨_, _, _, e, rfl⟩

theorem runStream_bad : ∀ (pre : List OpenAIChatCompletionChunk) (st : StreamState)
    (bad : OpenAIChatCompletionChunk) (post postAlt : List OpenAIChatCompletionChunk),
    (∀ x ∈ pre, wfChunk x = true) → chunkHasBadToolArgs bad = true →
    (runStream st (pre ++ bad :: post)).2.2.isSome = true ∧
    runStream st (pre ++ bad :: post) = runStream st (pre ++ bad :: postAlt) ∧
    ∀ ev ∈ (runStream st (pre ++ bad :: post)).1,
      ev.event.event_type ≠ ChatCompletionResponseEventType.complete := by
  intro pre
  induction pre with
  | nil =>
    intro st bad post postAlt _ hbad
    obtain ⟨st1, evs, ws, e, hpc⟩ := processChunk_bad bad hbad st
    simp only [List.nil_append]
    refine ⟨?_, ?_, ?_⟩
    · simp [runStream, hpc]
    · simp [runStream, hpc]
    · intro ev hev
      refine processChunk_no_complete st bad ev ?_
      rw [hpc]
      simp only [runStream, hpc] at hev
      exact hev
  | cons p pre ih =>
    intro st bad post postAlt hwf hbad
    obtain ⟨sr1, evs, ws, hpc, _, _⟩ :=
      processChunk_wf p (hwf p (List.mem_cons_self p pre)) st
    obtain ⟨ih1, ih2, ih3⟩ := ih { started := true, stop_reason := sr1 } bad post postAlt
      (fun x hx => hwf x (List.mem_cons_of_mem p hx)) hbad
    simp only [List.cons_append, List.append_eq, runStream, hpc]
    refine ⟨ih1, by rw [ih2], ?_⟩
    intro ev hev
    rcases List.mem_append.mp hev with hm | hm
    · refine processChunk_no_complete st p ev ?_
      rw [hpc]
      exact hm
    · exact ih3 ev hm

/-! ## Lemmas about the request mapper -/

set_option maxHeartbeats 1000000 in
theorem convert_request_tool_choice (request : ChatCompletionRequest) (n : Nat) :
    (convert_chat_completion_request request n).1.tool_choice
        = (if request.tools.isEmpty then none else request.tool_choice) := by
  obtain ⟨mo, ms, sp, tls, tcv, lpc, stm⟩ := request
  cases sp <;> cases lpc <;>
    simp only [convert_chat_completion_request] <;>
      first
        | rfl
        | (split_ifs <;> rfl)

set_option maxHeartbeats 1000000 in
theorem convert_request_nvext_top_k (request : ChatCompletionRequest) (n : Nat) :
    (convert_chat_completion_request request n).1.nvext.top_k
        = (match request.sampling_params with
           | none => none
           | some sp =>
             if sp.strategy = "top_p" then some (-1)
             else if sp.strategy = "top_k" then some sp.top_k
             else if sp.strategy = "greedy" then some (-1)
             else none) := by
  obtain ⟨mo, ms, sp, tls, tcv, lpc, stm⟩ := request
  cases sp <;> cases lpc <;>
    simp only [convert_chat_completion_request] <;>
      first
        | rfl
        | (split_ifs <;> rfl)

set_option maxHeartbeats 1000000 in
theorem convert_request_temperature (request : ChatCompletionRequest) (n : Nat) :
    (convert_chat_completion_request request n).1.temperature
        = (match request.sampling_params with
           | none => none
           | some sp =>
             if sp.strategy = "top_p" then none
             else if sp.strategy = "top_k" then none
             else if sp.strategy = "greedy" then some sp.temperature
             else none) := by
  obtain ⟨mo, ms, sp, tls, tcv, lpc, stm⟩ := request
  cases sp <;> cases lpc <;>
    simp only [convert_chat_completion_request] <;>
      first
        | rfl
        | (split_ifs <;> rfl)

set_option maxHeartbeats 1000000 in
theorem convert_request_top_p (request : ChatCompletionRequest) (n : Nat) :
    (convert_chat_completion_request request n).1.top_p
        = (match request.sampling_params with
           | none => none
           | some sp => if sp.strategy = "top_p" then some sp.top_p else none) := by
  obtain ⟨mo, ms, sp, tls, tcv, lpc, stm⟩ := request
  cases sp <;> cases lpc <;>
    simp only [convert_chat_completion_request] <;>
      first
        | rfl
        | (split_ifs <;> rfl)

set_option maxHeartbeats 1000000 in
theorem convert_request_warnings (request : ChatCompletionRequest) (n : Nat) :
    (convert_chat_completion_request request n).2
        = (match request.sampling_params with
           | none => []
           | some sp =>
             if sp.strategy = "top_p" then []
             else if sp.strategy = "top_k" then
               (if sp.top_k ≠ -1 ∧ sp.top_k < 1 then ["top_k must be -1 or >= 1"] else [])
             else []) := by
  obtain ⟨mo, ms, sp, tls, tcv, lpc, stm⟩ := request
  cases sp <;> cases lpc <;>
    simp only [convert_chat_completion_request] <;>
      first
        | rfl
        | (split_ifs <;> rfl)

/-! ## Claim theorems -/

/-- Claim C1 (code bug): the claim states that the latched stop reason is
updated only when a chunk carries a non empty finish reason, keeps its
previous value otherwise, and is absent on the terminal complete event
when no chunk ever carried a finish reason.  The source instead passes
every finish reason, absent ones included, through the total mapper
_convert_openai_finish_reason, whose result is a StopReason enum member
and therefore always truthy in Python, so the or fallback in
stop_reason = _convert_openai_finish_reason(...) or stop_reason never
keeps the previous value.  Evaluating the embedded stream mapper on a
single chunk that carries no finish reason shows the complete event
carrying end_of_turn where the claim requires an absent stop reason. -/
theorem C1_stop_reason_not_latched_eval :
    (convert_openai_chat_completion_stream [contentChunk "hi"]).1.map
      (fun ev => (ev.event.event_type, ev.event.stop_reason))
    = [(ChatCompletionResponseEventType.start, none),
       (ChatCompletionResponseEventType.complete, some StopReason.end_of_turn)] := by
  decide

/-- Claim C2 counterexample: the claim quantifies over every input
stream, the empty stream included, but the empty stream produces a
single complete event and no start event, so its event type sequence
does not have the claimed lifecycle shape. -/
theorem C2_empty_stream_counterexample :
    isLifecycleShape (eventTypes (convert_openai_chat_completion_stream []).1) = false ∧
    eventTypes (convert_openai_chat_completion_stream []).1
      = [ChatCompletionResponseEventType.complete] := by
  decide

/-- Claim C2 (amended): for every non empty input stream of well formed
chunks (each carrying at least one choice, with tool call arguments that
parse), the produced event type sequence is exactly one start event,
zero or more progress events, and one trailing complete event. -/
theorem C2_lifecycle_nonempty (chunks : List OpenAIChatCompletionChunk)
    (hne : chunks ≠ []) (hwf : ∀ c ∈ chunks, wfChunk c = true) :
    isLifecycleShape (eventTypes (convert_openai_chat_completion_stream chunks).1) = true := by
  cases chunks with
  | nil => exact absurd rfl hne
  | cons c cs =>
    obtain ⟨sr1, evs, ws, hpc, hty, hne2⟩ :=
      processChunk_wf c (hwf c (List.mem_cons_self c cs))
        { started := false, stop_reason := none }
    obtain ⟨herr, k2, hty2⟩ :=
      runStream_wf_progress cs (fun x hx => hwf x (List.mem_cons_of_mem c hx)) sr1
    have hty3 : eventTypes evs
        = ChatCompletionResponseEventType.start
            :: List.replicate (evs.length - 1) ChatCompletionResponseEventType.progress := hty
    rw [convert_openai_chat_completion_stream]
    simp only [runStream, hpc]
    rw [eventTypes_append, hty3, hty2, List.cons_append]
    simp only [isLifecycleShape]
    rw [← List.append_assoc, ← List.replicate_add]
    exact isProgressThenComplete_replicate _

/-- Witness for claim C2: a concrete two chunk stream has the lifecycle
shape. -/
theorem C2_lifecycle_nonempty_witness :
    isLifecycleShape (eventTypes
      (convert_openai_chat_completion_stream [contentChunk "Hel", contentChunk "lo"]).1)
      = true :=
  C2_lifecycle_nonempty [contentChunk "Hel", contentChunk "lo"] (by decide) (by decide)

/-- Claim C3: with sampling parameters present, strategy top_p forces
nvext.top_k to minus one and forwards top_p; strategy top_k forwards the
given top_k unchanged and emits the warning exactly when top_k is
neither minus one nor at least one; strategy greedy forces nvext.top_k
to minus one and forwards temperature; any other strategy forwards no
temperature, top_p or top_k override. -/
theorem C3_sampling_strategy_branches (request : ChatCompletionRequest) (sp : SamplingParams)
    (n : Nat) (hsp : request.sampling_params = some sp) :
    (sp.strategy = "top_p" →
      (convert_chat_completion_request request n).1.nvext.top_k = some (-1) ∧
      (convert_chat_completion_request request n).1.top_p = some sp.top_p) ∧
    (sp.strategy = "top_k" →
      (convert_chat_completion_request request n).1.nvext.top_k = some sp.top_k ∧
      ((convert_chat_completion_request request n).2
        = if sp.top_k ≠ -1 ∧ sp.top_k < 1 then ["top_k must be -1 or >= 1"] else [])) ∧
    (sp.strategy = "greedy" →
      (convert_chat_completion_request request n).1.nvext.top_k = some (-1) ∧
      (convert_chat_completion_request request n).1.temperature = some sp.temperature) ∧
    (sp.strategy ≠ "top_p" → sp.strategy ≠ "top_k" → sp.strategy ≠ "greedy" →
      (convert_chat_completion_request request n).1.temperature = none ∧
      (convert_chat_completion_request request n).1.top_p = none ∧
      (convert_chat_completion_request request n).1.nvext.top_k = none) := by
  refine ⟨?_, ?_, ?_, ?_⟩
  · intro h
    constructor
    · rw [convert_request_nvext_top_k, hsp]
      simp [h]
    · rw [convert_request_top_p, hsp]
      simp [h]
  · intro h
    constructor
    · rw [convert_request_nvext_top_k, hsp]
      simp [h]
    · rw [convert_request_warnings, hsp]
      simp [h]
  · intro h
    constructor
    · rw [convert_request_nvext_top_k, hsp]
      simp [h]
    · rw [convert_request_temperature, hsp]
      simp [h]
  · intro h1 h2 h3
    refine ⟨?_, ?_, ?_⟩
    · rw [convert_request_temperature, hsp]
      simp [h1, h2, h3]
    · rw [convert_request_top_p, hsp]
      simp [h1]
    · rw [convert_request_nvext_top_k, hsp]
      simp [h1, h2, h3]

/-- Witness for claim C3: the four strategy branches evaluated on
concrete requests. -/
theorem C3_sampling_strategy_branches_witness :
    ((convert_chat_completion_request reqTopP 1).1.nvext.top_k = some (-1) ∧
      (convert_chat_completion_request reqTopP 1).1.top_p = some spTopP.top_p) ∧
    ((convert_chat_completion_request reqTopK0 1).1.nvext.top_k = some spTopK0.top_k ∧
      ((convert_chat_completion_request reqTopK0 1).2
        = if spTopK0.top_k ≠ -1 ∧ spTopK0.top_k < 1 then ["top_k must be -1 or >= 1"] else [])) ∧
    ((convert_chat_completion_request reqGreedy 1).1.nvext.top_k = some (-1) ∧
      (convert_chat_completion_request reqGreedy 1).1.temperature = some spBase.temperature) ∧
    ((convert_chat_completion_request reqOther 1).1.temperature = none ∧
      (convert_chat_completion_request reqOther 1).1.top_p = none ∧
      (convert_chat_completion_request reqOther 1).1.nvext.top_k = none) :=
  ⟨(C3_sampling_strategy_branches reqTopP spTopP 1 rfl).1 rfl,
   (C3_sampling_strategy_branches reqTopK0 spTopK0 1 rfl).2.1 rfl,
   (C3_sampling_strategy_branches reqGreedy spBase 1 rfl).2.2.1 rfl,
   (C3_sampling_strategy_branches reqOther spOther 1 rfl).2.2.2
     (by decide) (by decide) (by decide)⟩

/-- Claim C4: the payload contains a tool_choice key only when the tools
field of the request is set (non empty): with tools set and tool_choice
unset no tool_choice key appears, with tool_choice set but tools unset
tool_choice is still omitted, and with both set the underlying string
value is emitted. -/
theorem C4_tool_choice_gating (request : ChatCompletionRequest) (n : Nat) :
    (request.tools = [] → (convert_chat_completion_request request n).1.tool_choice = none) ∧
    (request.tools ≠ [] → request.tool_choice = none →
      (convert_chat_completion_request request n).1.tool_choice = none) ∧
    (request.tools ≠ [] → ∀ tcv, request.tool_choice = some tcv →
      (convert_chat_completion_request request n).1.tool_choice = some tcv) := by
  refine ⟨?_, ?_, ?_⟩
  · intro h
    rw [convert_request_tool_choice]
    simp [h]
  · intro h hn
    rw [convert_request_tool_choice]
    cases h2 : request.tools with
    | nil => exact absurd h2 h
    | cons a l => simp [h2, hn]
  · intro h tcv htc
    rw [convert_request_tool_choice]
    cases h2 : request.tools with
    | nil => exact absurd h2 h
    | cons a l => simp [h2, htc]

/-- Witness for claim C4: the three gating cases evaluated on concrete
requests. -/
theorem C4_tool_choice_gating_witness :
    (convert_chat_completion_request reqChoiceOnly 1).1.tool_choice = none ∧
    (convert_chat_completion_request reqToolsOnly 1).1.tool_choice = none ∧
    (convert_chat_completion_request reqToolsAndChoice 1).1.tool_choice = some "required" :=
  ⟨(C4_tool_choice_gating reqChoiceOnly 1).1 rfl,
   (C4_tool_choice_gating reqToolsOnly 1).2.1 (by decide) rfl,
   (C4_tool_choice_gating reqToolsAndChoice 1).2.2 (by decide) "required" rfl⟩

/-- Claim C5: the finish reason mapper is a total function sending stop
to end_of_turn, length to out_of_tokens, tool_calls to end_of_message,
and every other input, the absent case included, to end_of_turn. -/
theorem C5_finish_reason_total :
    _convert_openai_finish_reason (some "stop") = StopReason.end_of_turn ∧
    _convert_openai_finish_reason (some "length") = StopReason.out_of_tokens ∧
    _convert_openai_finish_reason (some "tool_calls") = StopReason.end_of_message ∧
    ∀ fr : Option String, fr ≠ some "stop" → fr ≠ some "length" → fr ≠ some "tool_calls" →
      _convert_openai_finish_reason fr = StopReason.end_of_turn := by
  refine ⟨rfl, rfl, rfl, ?_⟩
  intro fr h1 h2 h3
  unfold _convert_openai_finish_reason
  split <;> first | rfl | simp_all

/-- Witness for claim C5: two inputs outside the table map to
end_of_turn. -/
theorem C5_finish_reason_total_witness :
    _convert_openai_finish_reason (some "content_filter") = StopReason.end_of_turn ∧
    _convert_openai_finish_reason none = StopReason.end_of_turn :=
  ⟨C5_finish_reason_total.2.2.2 (some "content_filter") (by decide) (by decide) (by decide),
   C5_finish_reason_total.2.2.2 none (by decide) (by decide) (by decide)⟩

/-- Claim C6: mapping a tool call list whose argument strings are the
json.dumps serializations of mappings yields ToolCalls whose argument
mappings equal those mappings, with id copied to call_id and
function.name to tool_name; an absent or empty input list yields the
empty list, never an absent value.  The hypothesis restricts keys and
string values to the escape free fragment the json model covers. -/
theorem C6_tool_call_roundtrip :
    (∀ specs : List (String × String × JObj), (∀ s ∈ specs, goodObj s.2.2 = true) →
      _convert_openai_tool_calls (some (specs.map mkProviderCall))
        = Except.ok (specs.map mkStackCall)) ∧
    _convert_openai_tool_calls none = Except.ok [] ∧
    _convert_openai_tool_calls (some []) = Except.ok [] := by
  refine ⟨?_, rfl, rfl⟩
  intro specs h
  cases specs with
  | nil => rfl
  | cons s tl =>
    have h2 := mapM_convToolCall_serialize (s :: tl) h
    rw [List.map_cons] at h2 ⊢
    simp only [_convert_openai_tool_calls, optListTruthy, if_true, Option.getD_some]
    rw [h2, List.map_cons]

/-- Witness for claim C6: the round trip on one concrete record whose
arguments are the serialization of a singleton mapping. -/
theorem C6_tool_call_roundtrip_witness :
    _convert_openai_tool_calls
        (some ([("call_1", "get_weather", [("x", JVal.jnum 1)])].map mkProviderCall))
      = Except.ok ([("call_1", "get_weather", [("x", JVal.jnum 1)])].map mkStackCall) :=
  C6_tool_call_roundtrip.1 [("call_1", "get_weather", [("x", JVal.jnum 1)])] (by decide)

/-- Claim C7: when any record of a truthy tool call list carries an
argument string that does not parse, the mapper raises (Except.error),
and in the stream the failure surfaces at the offending chunk: the run
has an error, the result does not depend on the chunks after the
offending one, and no complete event is ever emitted, so there is no
retry and no partial recovery. -/
theorem C7_parse_error_propagates :
    (∀ calls : List OpenAIChatCompletionMessageToolCall,
      (∃ tc ∈ calls, json_loads tc.function.arguments = none) →
      ∃ e, _convert_openai_tool_calls (some calls) = Except.error e) ∧
    (∀ (pre : List OpenAIChatCompletionChunk) (bad : OpenAIChatCompletionChunk)
        (post postAlt : List OpenAIChatCompletionChunk),
      (∀ x ∈ pre, wfChunk x = true) → chunkHasBadToolArgs bad = true →
      (convert_openai_chat_completion_stream (pre ++ bad :: post)).2.2.isSome = true ∧
      convert_openai_chat_completion_stream (pre ++ bad :: post)
        = convert_openai_chat_completion_stream (pre ++ bad :: postAlt) ∧
      ∀ ev ∈ (convert_openai_chat_completion_stream (pre ++ bad :: post)).1,
        ev.event.event_type ≠ ChatCompletionResponseEventType.complete) := by
  constructor
  · rintro calls ⟨tc, htc, hbad⟩
    cases calls with
    | nil => simp at htc
    | cons a l =>
      obtain ⟨e, he⟩ := mapM_convToolCall_error (a :: l) ⟨tc, htc, hbad⟩
      refine ⟨e, ?_⟩
      simp only [_convert_openai_tool_calls, optListTruthy, if_true, Option.getD_some]
      exact he
  · intro pre bad post postAlt hwf hbad
    exact runStream_bad pre { started := false, stop_reason := none } bad post postAlt hwf hbad

/-- Witness for claim C7: a concrete bad record fails the mapper, and a
stream holding it after a good chunk errors out identically whatever
follows, with no complete event. -/
theorem C7_parse_error_propagates_witness :
    (∃ e, _convert_openai_tool_calls (some [badToolCall]) = Except.error e) ∧
    ((convert_openai_chat_completion_stream
        ([contentChunk "Hel"] ++ badToolChunk :: [])).2.2.isSome = true ∧
      convert_openai_chat_completion_stream ([contentChunk "Hel"] ++ badToolChunk :: [])
        = convert_openai_chat_completion_stream
            ([contentChunk "Hel"] ++ badToolChunk :: [contentChunk "lo"]) ∧
      ∀ ev ∈ (convert_openai_chat_completion_stream
          ([contentChunk "Hel"] ++ badToolChunk :: [])).1,
        ev.event.event_type ≠ ChatCompletionResponseEventType.complete) :=
  ⟨C7_parse_error_propagates.1 [badToolCall] ⟨badToolCall, by decide, by decide⟩,
   C7_parse_error_propagates.2 [contentChunk "Hel"] badToolChunk [] [contentChunk "lo"]
     (by decide) (by decide)⟩

/-- Claim C8 counterexample: for a single chunk stream whose delta
carries both content and a tool call, the first of the two events
emitted for the chunk has event type start, not progress as the claim
states, because it is the first emission of the stream. -/
theorem C8_first_chunk_counterexample :
    eventTypes (convert_openai_chat_completion_stream [contentAndToolChunk]).1
      = [ChatCompletionResponseEventType.start, ChatCompletionResponseEventType.progress,
         ChatCompletionResponseEventType.complete] ∧
    (convert_openai_chat_completion_stream [contentAndToolChunk]).1.map
        (fun ev => ev.event.delta)
      = [EventDelta.text "x",
         EventDelta.toolCall { content := okStackCall, parse_status := ToolCallParseStatus.success },
         EventDelta.text ""] ∧
    decide (ChatCompletionResponseEventType.start
      = ChatCompletionResponseEventType.progress) = false := by
  decide

/-- Claim C8 (amended): for a chunk whose first choice carries both
truthy content and a truthy tool call list that converts, the mapper
emits exactly two events in order: first an event whose delta is the
content string, then a progress event whose delta is a ToolCallDelta
wrapping the first converted tool call with parse status success; the
first event has type progress unless it is the first emission of the
stream, in which case it has type start; when the delta carries more
than one tool call, only the first is used and the warning is
emitted. -/
theorem C8_content_and_tool_events (st : StreamState) (chunk : OpenAIChatCompletionChunk)
    (choice : OpenAIChunkChoice) (tc : ToolCall) (rest : List ToolCall)
    (hch : chunk.choices.head? = some choice)
    (hc : optStrTruthy choice.delta.content = true)
    (ht : optListTruthy choice.delta.tool_calls = true)
    (hconv : _convert_openai_tool_calls choice.delta.tool_calls = Except.ok (tc :: rest)) :
    processChunk st chunk =
      ({ started := true, stop_reason := latchStopReason choice.finish_reason st.stop_reason },
        [mkEvent (eventTypeAt st.started) (EventDelta.text (choice.delta.content.getD ""))
          (_convert_openai_logprobs choice.logprobs) none,
         mkEvent ChatCompletionResponseEventType.progress
          (EventDelta.toolCall { content := tc, parse_status := ToolCallParseStatus.success })
          (_convert_openai_logprobs choice.logprobs) none],
        chunkWarnings (choice.delta.tool_calls.getD []), none) ∧
    (1 < (choice.delta.tool_calls.getD []).length →
      chunkWarnings (choice.delta.tool_calls.getD [])
        = ["multiple tool calls found in a single delta, using the first, ignoring the rest"]) := by
  constructor
  · rw [processChunk_eq st chunk choice hch]
    have heq := processChoice_tools_ok st choice tc rest ht hconv
    rw [hc, if_pos rfl, Bool.or_true] at heq
    rw [heq]
    rfl
  · intro hlen
    rw [chunkWarnings, if_pos hlen]

/-- Witness for claim C8: the two event shape evaluated at a concrete
chunk with content and one tool call, at a state past the first
emission. -/
theorem C8_content_and_tool_events_witness :
    processChunk { started := true, stop_reason := none } contentAndToolChunk =
      ({ started := true,
         stop_reason := latchStopReason contentAndToolChoice.finish_reason none },
        [mkEvent (eventTypeAt true) (EventDelta.text (contentAndToolChoice.delta.content.getD ""))
          (_convert_openai_logprobs contentAndToolChoice.logprobs) none,
         mkEvent ChatCompletionResponseEventType.progress
          (EventDelta.toolCall { content := okStackCall, parse_status := ToolCallParseStatus.success })
          (_convert_openai_logprobs contentAndToolChoice.logprobs) none],
        chunkWarnings (contentAndToolChoice.delta.tool_calls.getD []), none) :=
  (C8_content_and_tool_events { started := true, stop_reason := none } contentAndToolChunk
    contentAndToolChoice okStackCall []
    rfl rfl rfl (by rfl)).1

/-- Claim C9: the non stream choice converter fails with the assertion
message when the message is missing or the finish reason is missing or
empty, and otherwise produces a response whose content defaults to the
empty string when the provider omitted it, whose stop reason comes from
the finish reason mapper, whose tool calls come from the tool call
mapper, and whose log probabilities come from the log probability
mapper. -/
theorem C9_choice_conversion (choice : OpenAIChoice) :
    (choice.message = none →
      convert_openai_chat_completion_choice choice
        = Except.error "error in server response: message not found") ∧
    (∀ message, choice.message = some message →
      optStrTruthy choice.finish_reason = false →
      convert_openai_chat_completion_choice choice
        = Except.error "error in server response: finish_reason not found") ∧
    (∀ message tcs, choice.message = some message →
      optStrTruthy choice.finish_reason = true →
      _convert_openai_tool_calls message.tool_calls = Except.ok tcs →
      convert_openai_chat_completion_choice choice
        = Except.ok
            { completion_message :=
                { content := pyStrOr message.content ""
                  stop_reason := _convert_openai_finish_reason choice.finish_reason
                  tool_calls := tcs }
              logprobs := _convert_openai_logprobs choice.logprobs }) := by
  refine ⟨?_, ?_, ?_⟩
  · intro h
    simp [convert_openai_chat_completion_choice, h]
  · intro message hm hf
    simp [convert_openai_chat_completion_choice, hm, hf]
  · intro message tcs hm hf hconv
    simp [convert_openai_chat_completion_choice, hm, hf, hconv]

/-- Witness for claim C9: the two assertion failures and one successful
conversion evaluated on concrete choices. -/
theorem C9_choice_conversion_witness :
    convert_openai_chat_completion_choice noMessageChoice
      = Except.error "error in server response: message not found" ∧
    convert_openai_chat_completion_choice emptyFinishChoice
      = Except.error "error in server response: finish_reason not found" ∧
    convert_openai_chat_completion_choice okChoice
      = Except.ok
          { completion_message :=
              { content := pyStrOr (some "hello") ""
                stop_reason := _convert_openai_finish_reason (some "stop")
                tool_calls := [] }
            logprobs := _convert_openai_logprobs none } :=
  ⟨(C9_choice_conversion noMessageChoice).1 rfl,
   (C9_choice_conversion emptyFinishChoice).2.1
     { content := some "hello", tool_calls := none } rfl rfl,
   (C9_choice_conversion okChoice).2.2
     { content := some "hello", tool_calls := none } [] rfl rfl rfl⟩

/-- Claim C10: the empty input stream produces exactly one event, a
complete event with empty string delta and absent stop reason, with no
start and no progress event and no warning and no error. -/
theorem C10_empty_stream_eval :
    convert_openai_chat_completion_stream []
      = ([mkEvent ChatCompletionResponseEventType.complete (EventDelta.text "") none none],
         [], none) := rfl

end NvidiaOpenAIUtils
